import Mathlib

/-!
Verification of the task-tracking automation scripts: the three-phase
auto-close script (`scripts` entry point, embedded below from its source)
and the meeting-minutes analyzer. JavaScript strings are modelled as
`String`/`List Char` (sequences of code points), JavaScript numbers used
for confidence scores as `ℚ`, the document store as an association list
keyed by document id, and each external service (git, the document store,
the model API) as an explicit oracle argument. Japanese field names of the
stored documents are transliterated (the original name is noted at each
field).
-/

/-- JavaScript's whitespace class (`\s`, and what `String.trim` strips):
space, tab, LF, VT, FF, CR, NBSP, BOM, and the Unicode space separators
plus the two line separators. -/
def isJsSpace (c : Char) : Bool :=
  c == ' ' || c == '\t' || c == '\n' || c == '\r'
  || c.toNat == 0x0b || c.toNat == 0x0c || c.toNat == 0xa0 || c.toNat == 0x1680
  || (decide (0x2000 ≤ c.toNat) && decide (c.toNat ≤ 0x200a))
  || c.toNat == 0x2028 || c.toNat == 0x2029 || c.toNat == 0x202f || c.toNat == 0x205f
  || c.toNat == 0x3000 || c.toNat == 0xfeff

/-- JavaScript `String.prototype.trim`. -/
def jsTrim (s : String) : String :=
  String.mk (((s.toList.dropWhile isJsSpace).reverse.dropWhile isJsSpace).reverse)

/-- JavaScript `s.slice(0, n)` (also `s.substring(0, n)`): the first `n`
code units of `s`. -/
def jsSlice (s : String) (n : Nat) : String := String.mk (s.toList.take n)

/-- JavaScript `s.length`. -/
def jsLength (s : String) : Nat := s.toList.length

/-- JavaScript `message.split('\n')[0]`: the text before the first newline. -/
def firstLine (s : String) : String :=
  String.mk (s.toList.takeWhile (fun c => ! (c == '\n')))

/-- `needle` is a prefix of `hay` (exact characters). -/
def leadsWith : List Char → List Char → Bool
  | [], _ => true
  | _ :: _, [] => false
  | c :: ns, d :: hs => c == d && leadsWith ns hs

/-- `needle` is a prefix of `hay`, comparing case-insensitively (the `i`
regex flag). -/
def ciLeads : List Char → List Char → Bool
  | [], _ => true
  | _ :: _, [] => false
  | c :: ns, d :: hs => (c.toLower == d.toLower) && ciLeads ns hs

/-- JavaScript `hay.includes(needle)`: `needle` occurs contiguously in `hay`. -/
def containsSub (hay needle : List Char) : Bool :=
  match hay with
  | [] => needle.isEmpty
  | _ :: t => leadsWith needle hay || containsSub t needle

/-- `test` holds at some suffix of the list: how `regex.test(s)` tries the
pattern at every start position. -/
def scanFor (test : List Char → Bool) : List Char → Bool
  | [] => test []
  | c :: t => test (c :: t) || scanFor test t

/-- Helper of `dedupFirst`: drop the elements already seen. -/
def dedupAux : List String → List String → List String
  | _, [] => []
  | seen, x :: t =>
    if seen.contains x then dedupAux seen t
    else x :: dedupAux (seen ++ [x]) t

/-- `[...new Set(todos)]`: de-duplicate keeping the first occurrence of
each element, in order. -/
def dedupFirst (l : List String) : List String := dedupAux [] l

/-- JavaScript `Map` lookup (`results.get(k)`), on the association-list
model of a map. -/
def mapGet {α : Type} : List (String × α) → String → Option α
  | [], _ => none
  | (k0, v0) :: rest, k => if k0 = k then some v0 else mapGet rest k

/-- JavaScript `results.has(k)`. -/
def mapHas {α : Type} (m : List (String × α)) (k : String) : Bool :=
  (mapGet m k).isSome

/-- JavaScript `results.set(k, v)`: replace in place if the key is present
(keeping insertion order), otherwise append. -/
def mapSet {α : Type} : List (String × α) → String → α → List (String × α)
  | [], k, v => [(k, v)]
  | (k0, v0) :: rest, k, v =>
    if k0 = k then (k, v) :: rest else (k0, v0) :: mapSet rest k v

/-! ## Phase 1: commit-message parsing

`COMMIT_PATTERN = /(?:Closes?|Fix(?:es)?|Resolve[sd]?|Complete[sd]?|Done):\s*TODO-(\d+)/gi`
(line 22 of the auto-close script). The alternation with its greedy
optional letters tries, at each position, exactly the verb forms below in
this order; after the verb the pattern requires a colon, optional
whitespace, the (case-insensitive) literal `TODO-` and one or more digits,
captured. The `g`-flag `exec` loop scans left to right and resumes after
each match. -/

def commitVerbForms : List String :=
  ["Closes", "Close", "Fixes", "Fix", "Resolves", "Resolved", "Resolve",
   "Completes", "Completed", "Complete", "Done"]

/-- Match `:\s*TODO-(\d+)` at the head of `r` (case-insensitively); on
success return the extracted id, already in the `'TODO-' + match[1]` form
of line 512, and the number of characters the whole tail consumed. -/
def commitPatternTail (r : List Char) : Option (String × Nat) :=
  match r with
  | ':' :: r2 =>
    let w := (r2.takeWhile isJsSpace).length
    let r3 := r2.drop w
    if ciLeads "TODO-".toList r3 then
      let ds := (r3.drop 5).takeWhile Char.isDigit
      if ds.length = 0 then none
      else some ("TODO-" ++ String.mk ds, 1 + w + 5 + ds.length)
    else none
  | _ => none

/-- Try each verb alternative at the head of `l` (the regex alternation,
with backtracking: a verb form whose continuation fails falls through to
the next form). Returns the extracted id and the total match length. -/
def tryVerbs : List String → List Char → Option (String × Nat)
  | [], _ => none
  | v :: vs, l =>
    if ciLeads v.toList l then
      match commitPatternTail (l.drop v.length) with
      | some (todoId, n) => some (todoId, v.length + n)
      | none => tryVerbs vs l
    else tryVerbs vs l

/-- The `while ((match = pattern.exec(message)) !== null)` loop of
`phase1_extractFromMessage` (lines 506-516), parameterized by the verb
alternation: find the leftmost match, push the id, resume after the match.
Every match consumes at least one character, so `fuel = l.length` steps
always suffice. -/
def commitScanAux (vs : List String) : Nat → List Char → List String
  | 0, _ => []
  | fuel + 1, l =>
    match tryVerbs vs l with
    | some (todoId, n) => todoId :: commitScanAux vs fuel (l.drop n)
    | none =>
      match l with
      | [] => []
      | _ :: t => commitScanAux vs fuel t

/-- `phase1_extractFromMessage` (lines 506-516): all `COMMIT_PATTERN`
matches of the message, de-duplicated. -/
def phase1_extractFromMessage (message : String) : List String :=
  dedupFirst (commitScanAux commitVerbForms message.toList.length message.toList)

/-- The five verbs named by the specification ("matching verbs {Closes,
Fixes, Resolves, Completes, Done}"), without the shorter and inflected
forms the source regex also accepts. -/
def specVerbForms : List String :=
  ["Closes", "Fixes", "Resolves", "Completes", "Done"]

/-- Definition following the spec's words for Phase 1: extraction exactly
as `phase1_extractFromMessage` but with only the spec's five verbs. Used
to compare the spec's description with the source behaviour. -/
def specPhase1Extract (message : String) : List String :=
  dedupFirst (commitScanAux specVerbForms message.toList.length message.toList)

/-! ## Security filter: `SECRET_PATTERNS`, `detectSecrets`, `sanitizeDiff`

The nine regexes of `SECRET_PATTERNS` (lines 80-90), each embedded as a
decidable matcher tried at every position of the text (`scanFor`). Greedy
quantifiers followed by a character outside the quantified class need no
backtracking, so each matcher takes the maximal run; the one pattern whose
quantified class overlaps the literal that follows it (the private-key
header) gets a genuine backtracking search (`pkAfter`). -/

/-- `['"]` — a straight single or double quote. -/
def isQuoteChar (c : Char) : Bool := c == Char.ofNat 0x27 || c == Char.ofNat 0x22

/-- `['"][^'"]{minLen,}['"]` at the head of `r`: an opening quote, at least
`minLen` non-quote characters, and a closing quote (any quote character
ends the run, as in the source regexes). -/
def quotedValAt (minLen : Nat) (r : List Char) : Bool :=
  match r with
  | [] => false
  | c :: r2 =>
    isQuoteChar c &&
      (let k := (r2.takeWhile (fun d => ! isQuoteChar d)).length
       decide (minLen ≤ k) && decide (k < r2.length))

/-- `\s*[:=]\s*` then a quoted value, at the head of `r`; `allowColon`
selects between the `[:=]` and the `=`-only patterns. -/
def assignTail (allowColon : Bool) (minLen : Nat) (r : List Char) : Bool :=
  let r1 := r.drop (r.takeWhile isJsSpace).length
  match r1 with
  | [] => false
  | c :: r2 =>
    (c == '=' || (allowColon && c == ':')) &&
      quotedValAt minLen (r2.drop (r2.takeWhile isJsSpace).length)

/-- `/sk-[a-zA-Z0-9]{20,}/` at the head (OpenAI API key). -/
def skAt (l : List Char) : Bool :=
  match l with
  | 's' :: 'k' :: '-' :: r => decide (20 ≤ (r.takeWhile Char.isAlphanum).length)
  | _ => false

/-- `/AIza[0-9A-Za-z-_]{35}/` at the head (Google API key). -/
def aizaAt (l : List Char) : Bool :=
  leadsWith "AIza".toList l &&
    decide (35 ≤ ((l.drop 4).takeWhile
      (fun c => Char.isAlphanum c || c == '-' || c == '_')).length)

/-- `/AKIA[0-9A-Z]{16}/` at the head (AWS access key). -/
def akiaAt (l : List Char) : Bool :=
  leadsWith "AKIA".toList l &&
    decide (16 ≤ ((l.drop 4).takeWhile
      (fun c => Char.isDigit c || Char.isUpper c)).length)

/-- `/password\s*=\s*['"][^'"]+['"]/i` at the head. -/
def passwordAt (l : List Char) : Bool :=
  ciLeads "password".toList l && assignTail false 1 (l.drop 8)

/-- `/api[_-]?key\s*[:=]\s*['"][^'"]+['"]/i` at the head. -/
def apiKeyAt (l : List Char) : Bool :=
  ciLeads "api".toList l &&
    (let r := l.drop 3
     let r2 := match r with
       | c :: t => if c == '_' || c == '-' then t else r
       | [] => r
     ciLeads "key".toList r2 && assignTail true 1 (r2.drop 3))

/-- `/secret\s*[:=]\s*['"][^'"]+['"]/i` at the head. -/
def secretAssignAt (l : List Char) : Bool :=
  ciLeads "secret".toList l && assignTail true 1 (l.drop 6)

/-- `/token\s*[:=]\s*['"][^'"]{20,}['"]/i` at the head. -/
def tokenAssignAt (l : List Char) : Bool :=
  ciLeads "token".toList l && assignTail true 20 (l.drop 5)

/-- `/bearer\s+[a-zA-Z0-9\-_\.]+/i` at the head. -/
def bearerAt (l : List Char) : Bool :=
  ciLeads "bearer".toList l &&
    (let r := l.drop 6
     let w := (r.takeWhile isJsSpace).length
     decide (1 ≤ w) &&
       decide (1 ≤ ((r.drop w).takeWhile
         (fun c => Char.isAlphanum c || c == '-' || c == '_' || c == '.')).length))

/-- `[A-Z\s]` — the class between `BEGIN` and `PRIVATE KEY`. -/
def pkClass (c : Char) : Bool := Char.isUpper c || isJsSpace c

/-- After `-----BEGIN `: one or more `[A-Z\s]` characters followed by the
literal ` PRIVATE KEY-----`, searching every split (the literal itself
starts with characters of the class, so the quantifier must backtrack). -/
def pkAfter : List Char → Bool
  | [] => false
  | c :: t => pkClass c && (leadsWith " PRIVATE KEY-----".toList t || pkAfter t)

/-- `/-----BEGIN [A-Z\s]+ PRIVATE KEY-----/` at the head. -/
def privateKeyAt (l : List Char) : Bool :=
  leadsWith "-----BEGIN ".toList l && pkAfter (l.drop 11)

/-- `detectSecrets` (lines 203-210): some pattern of `SECRET_PATTERNS`
matches somewhere in the diff. -/
def detectSecrets (diff : String) : Bool :=
  let l := diff.toList
  scanFor skAt l || scanFor aizaAt l || scanFor akiaAt l || scanFor passwordAt l
  || scanFor apiKeyAt l || scanFor secretAssignAt l || scanFor tokenAssignAt l
  || scanFor bearerAt l || scanFor privateKeyAt l

/-- `MAX_DIFF_SIZE` (line 93). -/
def MAX_DIFF_SIZE : Nat := 6000

/-- `sanitizeDiff` (lines 215-231): throw when a secret pattern matches,
otherwise cap the diff at `MAX_DIFF_SIZE` characters. (The
`changedFiles` argument of the source is unused by its body and omitted.) -/
def sanitizeDiff (diff : String) : Except String String :=
  if detectSecrets diff then
    Except.error "機密情報が検出されました。AI解析を中止します。"
  else if MAX_DIFF_SIZE < jsLength diff then Except.ok (jsSlice diff MAX_DIFF_SIZE)
  else Except.ok diff

/-! ## Excluded files and glob matching -/

/-- `EXCLUDED_PATTERNS` (lines 32-77). -/
def EXCLUDED_PATTERNS : List String :=
  ["package-lock.json", "yarn.lock", "pnpm-lock.yaml", "composer.lock",
   ".env", ".env.local", ".env.production", ".env.development",
   "*.key", "*.pem", "*.cert", "*.p12", "service-account-key.json", "credentials.json",
   "*.png", "*.jpg", "*.jpeg", "*.gif", "*.pdf", "*.ico", "*.svg",
   "*.woff", "*.woff2", "*.ttf", "*.eot",
   "dist/*", "build/*", "node_modules/*", "vendor/*", ".next/*", "out/*",
   ".DS_Store", ".gitignore", "Thumbs.db", "desktop.ini"]

/-- Anchored wildcard matching: `*` matches any run of characters, `?` any
one character, everything else itself. This is the regex
`'^' + pattern.replace(/\./g,'\\.').replace(/\*/g,'.*').replace(/\?/g,'.') + '$'`
of `isExcludedFile` (lines 183-188), and also the per-segment matching of
the glob model below. Structured as fuel recursion (each step shortens
pattern or text, so `p.length + l.length + 1` steps suffice) to keep the
definition computable by the kernel. -/
def wildMatchAux : Nat → List Char → List Char → Bool
  | 0, _, _ => false
  | _ + 1, [], l => l.isEmpty
  | fuel + 1, '*' :: pt, [] => wildMatchAux fuel pt []
  | fuel + 1, '*' :: pt, c :: lt =>
    wildMatchAux fuel pt (c :: lt) || wildMatchAux fuel ('*' :: pt) lt
  | _ + 1, '?' :: _, [] => false
  | fuel + 1, '?' :: pt, _ :: lt => wildMatchAux fuel pt lt
  | _ + 1, _ :: _, [] => false
  | fuel + 1, c :: pt, d :: lt => c == d && wildMatchAux fuel pt lt

/-- See `wildMatchAux`. -/
def wildMatch (p l : List Char) : Bool :=
  wildMatchAux (p.length + l.length + 1) p l

/-- `isExcludedFile` (lines 180-191). -/
def isExcludedFile (filePath : String) : Bool :=
  EXCLUDED_PATTERNS.any (fun pattern => wildMatch pattern.toList filePath.toList)

/-- `filterExcludedFiles` (lines 196-198). -/
def filterExcludedFiles (changedFiles : List String) : List String :=
  changedFiles.filter (fun file => ! isExcludedFile file)

/-- Split on `/` into path segments. -/
def splitOnSlash : List Char → List (List Char)
  | [] => [[]]
  | c :: t =>
    match splitOnSlash t with
    | h :: rest => if c == '/' then [] :: h :: rest else (c :: h) :: rest
    | [] => [[c]]

/-- Modelled from the spec: "glob semantics" of the external `minimatch`
library (a dependency, not part of this repository's sources). Pattern and
path are split into `/`-separated segments; a `**` pattern segment matches
any number of path segments, any other pattern segment matches one path
segment with `*`/`?` wildcards that do not cross a separator. Fuel
recursion, `ps.length + ss.length + 1` steps suffice. -/
def minimatchSegs : Nat → List (List Char) → List (List Char) → Bool
  | 0, _, _ => false
  | _ + 1, [], ss => ss.isEmpty
  | fuel + 1, p :: ps, ss =>
    if p = ['*', '*'] then
      match ss with
      | [] => minimatchSegs fuel ps []
      | _ :: st => minimatchSegs fuel ps ss || minimatchSegs fuel (p :: ps) st
    else
      match ss with
      | [] => false
      | s :: st => wildMatch p s && minimatchSegs fuel ps st

/-- `minimatch(path, pattern)` of the external library (see
`minimatchSegs`). -/
def minimatch (path pattern : String) : Bool :=
  let ps := splitOnSlash pattern.toList
  let ss := splitOnSlash path.toList
  minimatchSegs (ps.length + ss.length + 1) ps ss

/-! ## Data model

Stored ticket documents and the in-memory result records of the auto-close
run. Field names transliterate the Japanese source fields. -/

/-- The `aiAnalysis` object stored on a ticket / carried in a result. -/
structure AIInfo where
  analyzedAt : String
  confidence : ℚ
  reason : String
  model : String
deriving Repr, DecidableEq

/-- One audit-history entry (`判定履歴` element, lines 332-340). -/
structure HistoryEntry where
  /-- `日時` -/
  nichiji : String
  /-- `理由` -/
  riyuu : String
  /-- `コミットハッシュ` -/
  commitHash : String
  /-- `コミットメッセージ` -/
  commitMessage : String
  /-- `判定方式` — which phase produced the decision -/
  hanteiHoushiki : String
deriving Repr, DecidableEq

/-- `判定対象情報` — the declared match-target metadata of a ticket. -/
structure TargetFileInfo where
  /-- `成果物ファイル名` — declared artifact filename pattern -/
  seikabutsuFileName : Option String := none
deriving Repr, DecidableEq

/-- A ticket document of the `todos` collection. -/
structure Todo where
  /-- `ToDoNo` -/
  ToDoNo : String
  /-- `ToDoタイトル` -/
  ToDoTitle : String := ""
  /-- `ToDo内容` -/
  ToDoContent : Option String := none
  /-- `ステータス` -/
  statusJa : String := ""
  /-- `クローズ候補` -/
  closeCandidate : Option String := none
  /-- `判定対象情報` -/
  hanteiInfo : Option TargetFileInfo := none
  /-- `判定履歴` (absent on a fresh ticket) -/
  hanteiRireki : Option (List HistoryEntry) := none
  aiAnalysis : Option AIInfo := none
  /-- `クローズ日` -/
  closeDate : Option String := none
  /-- `更新日` -/
  updateDate : Option String := none
  projectId : String := ""
deriving Repr, DecidableEq

/-- A value of the `results` map of `main` (line 655):
`{ status?, reason, phase, commitHash, commitMessage, aiAnalysis? }`. -/
structure ResultData where
  status : Option String := none
  reason : String := ""
  phase : String := ""
  commitHash : String := ""
  commitMessage : String := ""
  aiAnalysis : Option AIInfo := none
deriving Repr, DecidableEq

/-- An entry of the `matched` list of `phase2_matchByFileName`. -/
structure P2Match where
  todoNo : String
  reason : String
  matchedFile : String
deriving Repr, DecidableEq

/-- A project document (only the fields this system reads). -/
structure Project where
  name : Option String := none
  repositories : List String := []
deriving Repr, DecidableEq

/-- The latest-commit record of `getLatestCommit`. -/
structure Commit where
  hash : String
  message : String
  author : String := ""
  date : String := ""
deriving Repr, DecidableEq

/-- The parsed JSON object the Phase 2 lightweight model call returns
(fields may be absent, as in any model response). -/
structure QuickRaw where
  confidence : Option ℚ := none
  reason : Option String := none
deriving Repr, DecidableEq

/-- One entry of the `results` array the Phase 3 model call returns. -/
structure AIRaw where
  todoNo : String
  confidence : ℚ
  reason : String
deriving Repr, DecidableEq

/-- The ticket collection, keyed by document id (`doc(todoNo)`). -/
abbrev Store := List (String × Todo)

/-- The `results` map of `main`, keyed by ticket id. -/
abbrev RMap := List (String × ResultData)

/-- The environment-derived configuration of the auto-close run
(lines 25-29, plus whether `OPENAI_API_KEY` is present). -/
structure RunEnv where
  aiAnalysisEnabled : Bool
  aiModel : String
  aiConfidenceThreshold : ℚ
  phase2ConfidenceThreshold : ℚ
  phase2AiEnabled : Bool
  hasOpenAIKey : Bool
deriving Repr, DecidableEq

/-! ## Phase 2: filename matching -/

/-- The `for (const file of changedFiles)` glob loop of
`phase2_matchByFileName` (lines 537-543): first file matching the glob
pattern wins. -/
def phase2FindGlob : List String → String → Option String
  | [], _ => none
  | file :: rest, targetFile =>
    if minimatch file targetFile then some file else phase2FindGlob rest targetFile

/-- The substring loop (lines 546-552): first file such that the declared
pattern is a substring of the path or vice versa. -/
def phase2FindSub : List String → String → Option String
  | [], _ => none
  | file :: rest, targetFile =>
    if containsSub file.toList targetFile.toList
        || containsSub targetFile.toList file.toList then some file
    else phase2FindSub rest targetFile

/-- `phase2_matchByFileName` (lines 520-565): per still-open ticket, take
the declared artifact filename; skip when absent or blank; use glob
matching when it contains `*` or `?`, bidirectional substring containment
otherwise; record the first matching file. -/
def phase2_matchByFileName : List String → List Todo → List P2Match
  | _, [] => []
  | changedFiles, todo :: rest =>
    let tail := phase2_matchByFileName changedFiles rest
    match todo.hanteiInfo with
    | none => tail
    | some info =>
      match info.seikabutsuFileName with
      | none => tail
      | some targetFile =>
        if targetFile = "" || jsTrim targetFile = "" then tail
        else
          let found :=
            if targetFile.toList.contains '*' || targetFile.toList.contains '?' then
              phase2FindGlob changedFiles targetFile
            else phase2FindSub changedFiles targetFile
          match found with
          | some matchedFile =>
            { todoNo := todo.ToDoNo,
              reason := "ファイル照合: " ++ targetFile ++ " → " ++ matchedFile,
              matchedFile := matchedFile } :: tail
          | none => tail

/-! ## Model calls (oracles) -/

/-- `quickAICheck` (lines 447-502). The oracle stands for the model API;
the first component of a successful return is the diff text embedded in
the prompt — the only transformation applied to it is the 3000-character
slice of line 456 (`quickAICheck` runs no secret scan). A model-call error
is caught inside the function and degraded to confidence 0 (lines
497-501). -/
def quickAICheck (hasKey : Bool) (oracle : String → Todo → Except String QuickRaw)
    (fileDiff : String) (todo : Todo) : Except String (String × ℚ × String) :=
  if hasKey = false then Except.error "OPENAI_API_KEY が設定されていません"
  else
    let limitedDiff := jsSlice fileDiff 3000
    match oracle limitedDiff todo with
    | Except.ok result =>
      Except.ok (limitedDiff, result.confidence.getD 0,
        match result.reason with
        | some r => if r = "" then "AI判定完了" else r
        | none => "AI判定完了")
    | Except.error _ => Except.ok (limitedDiff, 0, "AI判定エラー")

/-- `analyzeWithAI` (lines 364-441): fails when the key is missing,
otherwise one model call on the (already sanitized) diff and the ticket
list; `result.results || []` is the oracle's list. -/
def analyzeWithAI (hasKey : Bool)
    (oracle : String → List Todo → Except String (List AIRaw))
    (diff : String) (todos : List Todo) : Except String (List AIRaw) :=
  if hasKey = false then Except.error "OPENAI_API_KEY が設定されていません"
  else oracle diff todos

/-- `phase3_analyzeWithAI` (lines 569-604). Returns the accepted results
and, as evidence of what left the process, the diff text sent to the model
(`none` when no model call was made: feature disabled, key absent, or
`sanitizeDiff` threw — the catch of line 599 turns any of those into an
empty result list). -/
def phase3_analyzeWithAI (env : RunEnv)
    (oracle : String → List Todo → Except String (List AIRaw))
    (diff : String) (unclosedTodos : List Todo) : List AIRaw × Option String :=
  if env.aiAnalysisEnabled = false then ([], none)
  else if env.hasOpenAIKey = false then ([], none)
  else
    match sanitizeDiff diff with
    | Except.error _ => ([], none)
    | Except.ok sanitizedDiff =>
      match analyzeWithAI env.hasOpenAIKey oracle sanitizedDiff unclosedTodos with
      | Except.error _ => ([], some sanitizedDiff)
      | Except.ok aiResults =>
        (aiResults.filter (fun r => decide (env.aiConfidenceThreshold ≤ r.confidence)),
         some sanitizedDiff)

/-! ## Persistence: `markAsCloseCandidate` -/

/-- The `historyEntry` built at lines 332-340 of `markAsCloseCandidate`:
`now` is `new Date().toISOString()`; the phase label is derived from the
shape of `params` (presence of `aiAnalysis`, then non-emptiness of
`commitHash`), not from `params.phase`. -/
def mkHistoryEntry (params : ResultData) (now : String) : HistoryEntry :=
  { nichiji := now,
    riyuu := if params.reason = "" then "クローズ候補判定" else params.reason,
    commitHash := params.commitHash,
    commitMessage := params.commitMessage,
    hanteiHoushiki :=
      if params.aiAnalysis.isSome then "Phase3 (AI)"
      else if params.commitHash = "" then "Phase2 (ファイル照合)"
      else "Phase1 (コミットメッセージ)" }

/-- `markAsCloseCandidate` (lines 293-359): re-read the ticket (error when
absent), set the close-candidate flag, conditionally map the status,
attach `aiAnalysis`, append one history entry, set close/update dates, and
write the document back. `now` is `toISOString()`, `today` its date part
(line 345/349). The `|| default` fallbacks of the source apply to
empty-string fields (the JavaScript falsy cases representable here). -/
def markAsCloseCandidate (store : Store) (todoNo : String) (params : ResultData)
    (now today : String) : Except String (Store × Todo) :=
  match mapGet store todoNo with
  | none => Except.error ("ToDo " ++ todoNo ++ " が見つかりません")
  | some todoDoc =>
    let todo1 := { todoDoc with closeCandidate := some "ON" }
    let todo2 :=
      match params.status with
      | some st =>
        if ["closed", "in_progress", "review_pending"].contains st then
          { todo1 with statusJa :=
              if st = "closed" then "クローズ"
              else if st = "in_progress" then "作業中"
              else "確認待ち" }
        else todo1
      | none => todo1
    let todo3 :=
      match params.aiAnalysis with
      | some ai =>
        let aiInfo : AIInfo :=
          { analyzedAt := if ai.analyzedAt = "" then now else ai.analyzedAt,
            confidence := ai.confidence,
            reason := ai.reason,
            model := if ai.model = "" then "gpt-4o" else ai.model }
        { todo2 with aiAnalysis := some aiInfo }
      | none => todo2
    let history := todo3.hanteiRireki.getD []
    let todo4 := { todo3 with hanteiRireki := some (history ++ [mkHistoryEntry params now]) }
    let todo5 := if params.status = some "closed" then { todo4 with closeDate := some today } else todo4
    let todo6 := { todo5 with updateDate := some today }
    Except.ok (mapSet store todoNo todo6, todo6)

/-! ## `getUnclosedTodos` -/

/-- The body of `getUnclosedTodos`'s `try` block (lines 237-281).
`projectQ repo` models the `array-contains`/`limit(1)` project query
(`none` = empty snapshot), `todosOfProject` the per-project ticket query,
`allTodosQ` the whole-collection fallback used when `REPOSITORY` is unset;
an `error` value is a thrown store error. -/
def getUnclosedTodosE (repository : Option String)
    (allTodosQ : Except String (List Todo))
    (projectQ : String → Except String (Option (String × Project)))
    (todosOfProject : String → Except String (List Todo)) :
    Except String (List Todo) :=
  match repository with
  | none => do
    let todos ← allTodosQ
    return todos.filter (fun t => ! (t.statusJa == "クローズ"))
  | some repo => do
    match ← projectQ repo with
    | none => return []
    | some (projectId, _) =>
      let todos ← todosOfProject projectId
      return todos.filter (fun t => ! (t.statusJa == "クローズ"))

/-- `getUnclosedTodos` (lines 236-288): the catch of lines 283-287 turns
any store error into an empty list. -/
def getUnclosedTodos (repository : Option String)
    (allTodosQ : Except String (List Todo))
    (projectQ : String → Except String (Option (String × Project)))
    (todosOfProject : String → Except String (List Todo)) : List Todo :=
  match getUnclosedTodosE repository allTodosQ projectQ todosOfProject with
  | Except.ok todos => todos
  | Except.error _ => []

/-! ## `main`: the three-phase merge and the run -/

/-- The result record Phase 1 stores (lines 665-671). -/
def phase1ResultData (commit : Commit) : ResultData :=
  { status := some "closed",
    reason := "コミットメッセージによる判定",
    phase := "Phase1",
    commitHash := jsSlice commit.hash 10,
    commitMessage := firstLine commit.message }

/-- One iteration of the Phase 2 AI-gated loop (lines 689-732), carrying
the results map and the list of ticket ids for which the lightweight model
check was invoked. Tickets already present in the map are skipped before
anything else happens (line 691). -/
def phase2AiStep (env : RunEnv) (commit : Commit) (unclosedTodos : List Todo)
    (fileDiffOf : String → String)
    (quickOracle : String → Todo → Except String QuickRaw) (now : String)
    (acc : RMap × List String) (m : P2Match) : RMap × List String :=
  let (results, calls) := acc
  if mapHas results m.todoNo then (results, calls)
  else
    let fileDiff := fileDiffOf m.matchedFile
    match unclosedTodos.find? (fun t => t.ToDoNo == m.todoNo) with
    | none => (results, calls)
    | some todo =>
      let calls1 := calls ++ [m.todoNo]
      match quickAICheck env.hasOpenAIKey quickOracle fileDiff todo with
      | Except.error _ => (results, calls1)
      | Except.ok (_, confidence, reason) =>
        if decide (env.phase2ConfidenceThreshold ≤ confidence) then
          let aiInfo : AIInfo :=
            { analyzedAt := now, confidence := confidence,
              reason := reason, model := env.aiModel }
          (mapSet results m.todoNo
            { reason := m.reason ++ " - " ++ reason,
              phase := "Phase2改 (AI)",
              commitHash := jsSlice commit.hash 10,
              commitMessage := firstLine commit.message,
              aiAnalysis := some aiInfo }, calls1)
        else (results, calls1)

/-- The Phase 2 AI-gated loop over all filename matches. -/
def phase2FoldAI (env : RunEnv) (commit : Commit) (unclosedTodos : List Todo)
    (fileDiffOf : String → String)
    (quickOracle : String → Todo → Except String QuickRaw) (now : String)
    (results0 : RMap) (ms : List P2Match) : RMap × List String :=
  ms.foldl (phase2AiStep env commit unclosedTodos fileDiffOf quickOracle now)
    (results0, [])

/-- The Phase 2 fallback loop when the lightweight model check is disabled
or no key is present (lines 741-751): accept every filename match not yet
present. -/
def phase2FoldPlain (results0 : RMap) (commit : Commit) (ms : List P2Match) : RMap :=
  ms.foldl (fun results r =>
    if mapHas results r.todoNo then results
    else
      mapSet results r.todoNo
        { reason := r.reason, phase := "Phase2 (従来)",
          commitHash := jsSlice commit.hash 10,
          commitMessage := firstLine commit.message }) results0

/-- The Phase 3 merge loop (lines 768-787): add each accepted model result
whose ticket has no entry yet. -/
def phase3Fold (env : RunEnv) (commit : Commit) (now : String)
    (results0 : RMap) (rs : List AIRaw) : RMap :=
  rs.foldl (fun results r =>
    if mapHas results r.todoNo then results
    else
      let aiInfo : AIInfo :=
        { analyzedAt := now, confidence := r.confidence,
          reason := r.reason, model := env.aiModel }
      mapSet results r.todoNo
        { reason := r.reason, phase := "Phase3",
          commitHash := jsSlice commit.hash 10,
          commitMessage := firstLine commit.message,
          aiAnalysis := some aiInfo }) results0

/-- Phases 1 and 2 of `main` (lines 657-756): the results map after the
Phase 1 population and the Phase 2 merge, together with the ticket ids for
which Phase 2's lightweight model check was invoked. -/
def phase12Results (env : RunEnv) (commit : Commit) (filteredFiles : List String)
    (unclosedTodos : List Todo) (fileDiffOf : String → String)
    (quickOracle : String → Todo → Except String QuickRaw)
    (now : String) : RMap × List String :=
  let phase1Results := phase1_extractFromMessage commit.message
  let results1 :=
    phase1Results.foldl (fun results todoNo =>
      mapSet results todoNo (phase1ResultData commit)) []
  let phase2Matches := phase2_matchByFileName filteredFiles unclosedTodos
  if env.phase2AiEnabled && env.hasOpenAIKey then
    phase2FoldAI env commit unclosedTodos fileDiffOf quickOracle now results1 phase2Matches
  else (phase2FoldPlain results1 commit phase2Matches, [])

/-- The phase section of `main` (lines 654-794): build the `results` map.
Also returns the ticket ids Phase 2 sent to the model and the diff text
Phase 3 sent (`none` = no Phase 3 model call). `fileDiffOf` models
`getFileDiff(commit.hash, ·)`, `diffText` `getCommitDiff(commit.hash)`. -/
def buildResults (env : RunEnv) (commit : Commit) (filteredFiles : List String)
    (unclosedTodos : List Todo) (fileDiffOf : String → String)
    (quickOracle : String → Todo → Except String QuickRaw)
    (p3Oracle : String → List Todo → Except String (List AIRaw))
    (diffText : String) (now : String) : RMap × List String × Option String :=
  let p2 := phase12Results env commit filteredFiles unclosedTodos fileDiffOf quickOracle now
  if env.aiAnalysisEnabled then
    let p3 := phase3_analyzeWithAI env p3Oracle diffText unclosedTodos
    (phase3Fold env commit now p2.1 p3.1, p2.2, p3.2)
  else (p2.1, p2.2, none)

/-- The persistence loop of `main` (lines 831-840): mark every merged
ticket, counting successes and failures. -/
def persistAll (store0 : Store) (results : RMap) (now today : String) :
    Store × Nat × Nat :=
  results.foldl (fun acc kv =>
    match markAsCloseCandidate acc.1 kv.1 kv.2 now today with
    | Except.ok (st, _) => (st, acc.2.1 + 1, acc.2.2)
    | Except.error _ => (acc.1, acc.2.1, acc.2.2 + 1)) (store0, 0, 0)

/-- What one auto-close run did. -/
structure RunOut where
  exitCode : Nat
  results : RMap
  p2Calls : List String
  p3Sent : Option String
  store : Store
deriving Repr, DecidableEq

/-- `main` (lines 608-859): exit 1 when the commit cannot be read; fetch
and filter the changed files; fetch the open tickets (exit 0 when none);
run the three phases; exit 0 when the merged map is empty; otherwise
persist every entry and exit 1 exactly when some persistence call failed. -/
def mainRun (env : RunEnv) (commitQ : Option Commit) (changedFiles : List String)
    (repository : Option String) (allTodosQ : Except String (List Todo))
    (projectQ : String → Except String (Option (String × Project)))
    (todosOfProject : String → Except String (List Todo))
    (fileDiffOf : String → String)
    (quickOracle : String → Todo → Except String QuickRaw)
    (p3Oracle : String → List Todo → Except String (List AIRaw))
    (diffText : String) (store : Store) (now today : String) : RunOut :=
  match commitQ with
  | none => { exitCode := 1, results := [], p2Calls := [], p3Sent := none, store := store }
  | some commit =>
    let filteredFiles := filterExcludedFiles changedFiles
    let unclosedTodos := getUnclosedTodos repository allTodosQ projectQ todosOfProject
    if unclosedTodos.isEmpty then
      { exitCode := 0, results := [], p2Calls := [], p3Sent := none, store := store }
    else
      let br :=
        buildResults env commit filteredFiles unclosedTodos fileDiffOf quickOracle
          p3Oracle diffText now
      if br.1.isEmpty then
        { exitCode := 0, results := br.1, p2Calls := br.2.1, p3Sent := br.2.2,
          store := store }
      else
        let pa := persistAll store br.1 now today
        { exitCode := if 0 < pa.2.2 then 1 else 0, results := br.1,
          p2Calls := br.2.1, p3Sent := br.2.2, store := pa.1 }

/-! ## Minutes analyzer (`analyze-minutes` script)

The project-resolution and save path of the second script. The extracted
issue/todo records are carried opaquely (as the raw model output they are;
this script validates none of their fields before storing them). -/

/-- What `analyzeMinutes` returns: the parsed JSON object of the model
response. -/
structure AnalysisResult where
  projectName : Option String := none
  issues : List String := []
  todos : List String := []
deriving Repr, DecidableEq

/-- `normalizeProjectName` (lines 345-353 of the minutes script): empty
for a missing/empty name, otherwise trim and fold the four smart-quote
characters (U+2018/U+2019 to the straight apostrophe, U+201C/U+201D to the
straight double quote). -/
def foldQuoteChar (c : Char) : Char :=
  if c.toNat = 0x2018 || c.toNat = 0x2019 then Char.ofNat 0x27
  else if c.toNat = 0x201c || c.toNat = 0x201d then Char.ofNat 0x22
  else c

/-- See `foldQuoteChar`. -/
def normalizeProjectName (name : Option String) : String :=
  match name with
  | none => ""
  | some n => if n = "" then "" else String.mk ((jsTrim n).toList.map foldQuoteChar)

/-- `findProjectByName` (lines 359-404): `none` for a blank search name;
fetch all project documents (`projectsQ`; an `error` value is a thrown
store query error, caught at lines 400-403 and turned into `none`) and
return the first whose normalized name equals the normalized search
name. -/
def findProjectByName (projectName : String)
    (projectsQ : Except String (List (String × Project))) :
    Option (String × Project) :=
  if projectName = "" || jsTrim projectName = "" then none
  else
    match projectsQ with
    | Except.error _ => none
    | Except.ok docs =>
      let normalizedSearchName := normalizeProjectName (some projectName)
      docs.find? (fun d =>
        normalizeProjectName (some (d.2.name.getD "")) == normalizedSearchName)

/-- The pending-approval record `savePendingMinutes` writes (lines
409-445), with `parsedData` and `metadata` flattened into the record. -/
structure PendingMinutes where
  minutesFile : String
  minutesFilePath : String
  projectId : String
  projectNameFromMinutes : String
  issues : List String
  todos : List String
  commit : String
  pushedBy : String
  analyzedAt : String
  model : String
  statusP : String
  createdAt : String
deriving Repr, DecidableEq

/-- `path.basename`: the last `/`-separated segment. -/
def jsBasename (s : String) : String :=
  String.mk ((splitOnSlash s.toList).getLastD [])

/-- `savePendingMinutes` (lines 409-445): build the pending record
(`status: 'pending'`, empty-string defaults for missing metadata). -/
def savePendingMinutes (minutesFile : String) (analysisResult : AnalysisResult)
    (projectId projectNameFromMinutes commitArg pushedBy now aiModel : String) :
    PendingMinutes :=
  { minutesFile := jsBasename minutesFile,
    minutesFilePath := minutesFile,
    projectId := projectId,
    projectNameFromMinutes := projectNameFromMinutes,
    issues := analysisResult.issues,
    todos := analysisResult.todos,
    commit := commitArg,
    pushedBy := pushedBy,
    analyzedAt := now,
    model := aiModel,
    statusP := "pending",
    createdAt := now }

/-- Steps 3-4 of the minutes script's `main` (lines 487-514): resolve the
extracted project name only when no `--projectId` was given and the model
extracted a (truthy) name; an unresolved name leaves the id empty; then
`savePendingMinutes` is called exactly once. Returns the written records
and the resolved project id. -/
def minutesResolveAndSave (optsProjectId : String) (analysisResult : AnalysisResult)
    (projectsQ : Except String (List (String × Project)))
    (optsFile commitArg pushedBy now aiModel : String) :
    List PendingMinutes × String :=
  let projectName := analysisResult.projectName
  let resolvedProjectId :=
    if optsProjectId = "" then
      match projectName with
      | some pn =>
        if pn = "" then optsProjectId
        else
          match findProjectByName pn projectsQ with
          | some (id, _) => id
          | none => optsProjectId
      | none => optsProjectId
    else optsProjectId
  let record :=
    savePendingMinutes optsFile analysisResult resolvedProjectId
      (match projectName with | some pn => pn | none => "")
      commitArg pushedBy now aiModel
  ([record], resolvedProjectId)

/-! ## Derived predicate used by the security claims -/

/-- The diff contains a substring matching `sk-` followed by 20 or more
alphanumeric characters (the first `SECRET_PATTERNS` entry), stated
declaratively. -/
def skSecretIn (s : String) : Prop :=
  ∃ pre mid post, s.toList = pre ++ ('s' :: 'k' :: '-' :: (mid ++ post))
    ∧ 20 ≤ mid.length ∧ ∀ c ∈ mid, Char.isAlphanum c = true

/-! ## Concrete sample inputs used by the witnesses and counterexamples -/

/-- A run configuration with every model feature enabled. -/
def envW : RunEnv :=
  { aiAnalysisEnabled := true, aiModel := "gpt-4o",
    aiConfidenceThreshold := ⟨7, 10, by norm_num, by norm_num⟩,
    phase2ConfidenceThreshold := ⟨1, 2, by norm_num, by norm_num⟩,
    phase2AiEnabled := true, hasOpenAIKey := true }

/-- A sample commit whose message closes TODO-12. -/
def commitW : Commit := { hash := "abcdef12345", message := "Closes: TODO-12" }

/-- A sample open ticket. -/
def todoW : Todo := { ToDoNo := "TODO-12", statusJa := "起票" }

/-- A Phase 2 model oracle always answering with confidence 1. -/
def quickOracleW : String → Todo → Except String QuickRaw :=
  fun _ _ => Except.ok { confidence := some 1, reason := some "ok" }

/-- A Phase 3 model oracle answering with no related tickets. -/
def p3OracleW : String → List Todo → Except String (List AIRaw) :=
  fun _ _ => Except.ok []

/-- A run configuration exercising only Phases 1 and 2 (AI-gated). -/
def envC7 : RunEnv :=
  { aiAnalysisEnabled := false, aiModel := "gpt-4o",
    aiConfidenceThreshold := ⟨7, 10, by norm_num, by norm_num⟩,
    phase2ConfidenceThreshold := ⟨1, 2, by norm_num, by norm_num⟩,
    phase2AiEnabled := true, hasOpenAIKey := true }

/-- `envC7` with the Phase 2 lightweight model check disabled. -/
def envC7plain : RunEnv := { envC7 with phase2AiEnabled := false }

/-- A commit whose message matches no Phase 1 pattern. -/
def commitC7 : Commit := { hash := "abcdef12345", message := "update docs" }

/-- A ticket whose declared artifact filename matches the changed file. -/
def todoC7 : Todo :=
  { ToDoNo := "TODO-009", statusJa := "起票",
    hanteiInfo := some { seikabutsuFileName := some "docs/x.md" } }

/-! ## Map lemmas -/

theorem mapGet_mapSet_self {α : Type} (m : List (String × α)) (k : String) (v : α) :
    mapGet (mapSet m k v) k = some v := by
  induction m with
  | nil => simp [mapSet, mapGet]
  | cons kv rest ih =>
    obtain ⟨k0, v0⟩ := kv
    by_cases h : k0 = k
    · simp [mapSet, h, mapGet]
    · simp [mapSet, h, mapGet, ih]

theorem mapGet_mapSet_ne {α : Type} (m : List (String × α)) (k k' : String) {v : α}
    (h : k' ≠ k) : mapGet (mapSet m k v) k' = mapGet m k' := by
  have hk : ¬ (k = k') := fun hh => h hh.symm
  induction m with
  | nil => simp [mapSet, mapGet, hk]
  | cons kv rest ih =>
    obtain ⟨k0, v0⟩ := kv
    by_cases h0 : k0 = k
    · subst h0
      simp [mapSet, mapGet, hk]
    · simp [mapSet, h0, mapGet, ih]

theorem mapSet_keys {α : Type} (m : List (String × α)) (k : String) (v : α)
    (h : (mapGet m k).isSome = true) :
    (mapSet m k v).map Prod.fst = m.map Prod.fst := by
  induction m with
  | nil => simp [mapGet] at h
  | cons kv rest ih =>
    obtain ⟨k0, v0⟩ := kv
    by_cases h0 : k0 = k
    · simp [mapSet, h0]
    · simp [mapGet, h0] at h
      simp [mapSet, h0, ih h]

/-- The Phase 1 loop (a fold of `mapSet` with one fixed value) populates
exactly the extracted ids. -/
theorem foldSet_mapGet (p1 : List String) (m : RMap) (v : ResultData) (id : String) :
    mapGet (p1.foldl (fun results todoNo => mapSet results todoNo v) m) id
      = if id ∈ p1 then some v else mapGet m id := by
  induction p1 generalizing m with
  | nil => simp
  | cons x t ih =>
    simp only [List.foldl_cons, ih, List.mem_cons]
    by_cases hx : id ∈ t
    · simp [hx]
    · by_cases hone : id = x
      · simp [hx, hone, mapGet_mapSet_self]
      · simp [hx, hone, mapGet_mapSet_ne m x id hone]

/-! ## Preservation lemmas: later phases never touch an existing entry -/

/-- One Phase 2 AI-gated iteration neither changes an existing entry nor
invokes the model for its ticket. -/
theorem phase2AiStep_preserve (env : RunEnv) (commit : Commit)
    (unclosedTodos : List Todo) (fileDiffOf : String → String)
    (quickOracle : String → Todo → Except String QuickRaw) (now : String)
    (acc : RMap × List String) (m : P2Match) (id : String) (v : ResultData)
    (h1 : mapGet acc.1 id = some v) (h2 : id ∉ acc.2) :
    mapGet (phase2AiStep env commit unclosedTodos fileDiffOf quickOracle now acc m).1 id
        = some v
      ∧ id ∉ (phase2AiStep env commit unclosedTodos fileDiffOf quickOracle now acc m).2 := by
  obtain ⟨results, calls⟩ := acc
  simp only at h1 h2
  by_cases hhas : mapHas results m.todoNo
  · simp [phase2AiStep, hhas, h1, h2]
  · have hne : id ≠ m.todoNo := by
      intro he
      subst he
      simp [mapHas, h1] at hhas
    have hmem : id ∉ calls ++ [m.todoNo] := by
      simp [h2, hne]
    simp only [phase2AiStep, hhas, if_false]
    cases hf : unclosedTodos.find? (fun t => t.ToDoNo == m.todoNo) with
    | none => simp [h1, h2]
    | some todo =>
      cases hq : quickAICheck env.hasOpenAIKey quickOracle (fileDiffOf m.matchedFile) todo with
      | error e => simp [hq, h1, hmem]
      | ok triple =>
        obtain ⟨sent, confidence, reason⟩ := triple
        simp only [hq]
        by_cases hc : env.phase2ConfidenceThreshold ≤ confidence
        · simp [hc, mapGet_mapSet_ne results m.todoNo id hne, h1, hmem]
        · simp [hc, h1, hmem]

/-- The whole Phase 2 AI-gated loop preserves existing entries and never
invokes the model for their tickets. -/
theorem phase2AiLoop_preserve (env : RunEnv) (commit : Commit)
    (unclosedTodos : List Todo) (fileDiffOf : String → String)
    (quickOracle : String → Todo → Except String QuickRaw) (now : String)
    (ms : List P2Match) (acc : RMap × List String) (id : String) (v : ResultData)
    (h1 : mapGet acc.1 id = some v) (h2 : id ∉ acc.2) :
    mapGet (ms.foldl (phase2AiStep env commit unclosedTodos fileDiffOf quickOracle now) acc).1 id
        = some v
      ∧ id ∉ (ms.foldl (phase2AiStep env commit unclosedTodos fileDiffOf quickOracle now) acc).2 := by
  induction ms generalizing acc with
  | nil => exact ⟨h1, h2⟩
  | cons m rest ih =>
    have step := phase2AiStep_preserve env commit unclosedTodos fileDiffOf quickOracle now
      acc m id v h1 h2
    simpa using ih _ step.1 step.2

/-- The Phase 2 fallback loop preserves existing entries. -/
theorem phase2FoldPlain_preserve (results0 : RMap) (commit : Commit)
    (ms : List P2Match) (id : String) (v : ResultData)
    (h : mapGet results0 id = some v) :
    mapGet (phase2FoldPlain results0 commit ms) id = some v := by
  induction ms generalizing results0 with
  | nil => exact h
  | cons m rest ih =>
    simp only [phase2FoldPlain, List.foldl_cons]
    by_cases hhas : mapHas results0 m.todoNo = true
    · rw [if_pos hhas]
      exact ih results0 h
    · have hne : id ≠ m.todoNo := by
        intro he
        subst he
        simp [mapHas, h] at hhas
      rw [if_neg hhas]
      exact ih _ (by rw [mapGet_mapSet_ne results0 m.todoNo id hne]; exact h)

/-- The Phase 3 merge loop preserves existing entries. -/
theorem phase3Fold_preserve (env : RunEnv) (commit : Commit) (now : String)
    (results0 : RMap) (rs : List AIRaw) (id : String) (v : ResultData)
    (h : mapGet results0 id = some v) :
    mapGet (phase3Fold env commit now results0 rs) id = some v := by
  induction rs generalizing results0 with
  | nil => exact h
  | cons r rest ih =>
    simp only [phase3Fold, List.foldl_cons]
    by_cases hhas : mapHas results0 r.todoNo = true
    · rw [if_pos hhas]
      exact ih results0 h
    · have hne : id ≠ r.todoNo := by
        intro he
        subst he
        simp [mapHas, h] at hhas
      rw [if_neg hhas]
      exact ih _ (by rw [mapGet_mapSet_ne results0 r.todoNo id hne]; exact h)

/-! ## Claim C1 -/

/-- Claim C1: in every run, a ticket id extracted by Phase 1 keeps its
Phase 1 entry in the merged results map — Phase 2 and Phase 3 only add
entries for absent keys, so they never overwrite or re-add it — and
Phase 2's lightweight model check is never invoked for it. -/
theorem claim_C1_phase1_precedence (env : RunEnv) (commit : Commit)
    (filteredFiles : List String) (unclosedTodos : List Todo)
    (fileDiffOf : String → String)
    (quickOracle : String → Todo → Except String QuickRaw)
    (p3Oracle : String → List Todo → Except String (List AIRaw))
    (diffText now : String) (id : String)
    (h : id ∈ phase1_extractFromMessage commit.message) :
    mapGet (buildResults env commit filteredFiles unclosedTodos fileDiffOf quickOracle
        p3Oracle diffText now).1 id = some (phase1ResultData commit)
    ∧ id ∉ (buildResults env commit filteredFiles unclosedTodos fileDiffOf quickOracle
        p3Oracle diffText now).2.1 := by
  have h1 : mapGet ((phase1_extractFromMessage commit.message).foldl
      (fun results todoNo => mapSet results todoNo (phase1ResultData commit)) []) id
      = some (phase1ResultData commit) := by
    rw [foldSet_mapGet]
    simp [h]
  have h2 :
      mapGet (phase12Results env commit filteredFiles unclosedTodos fileDiffOf
          quickOracle now).1 id = some (phase1ResultData commit)
      ∧ id ∉ (phase12Results env commit filteredFiles unclosedTodos fileDiffOf
          quickOracle now).2 := by
    unfold phase12Results
    by_cases hb : (env.phase2AiEnabled && env.hasOpenAIKey) = true
    · rw [if_pos hb]
      exact phase2AiLoop_preserve env commit unclosedTodos fileDiffOf quickOracle now
        _ _ id _ h1 (by simp)
    · rw [if_neg hb]
      exact ⟨phase2FoldPlain_preserve _ commit _ id _ h1, by simp⟩
  constructor
  · show mapGet (buildResults _ _ _ _ _ _ _ _ _).1 id = _
    unfold buildResults
    by_cases h3 : env.aiAnalysisEnabled = true
    · simp only [h3, if_true]
      exact phase3Fold_preserve env commit now _ _ id _ h2.1
    · simp only [h3, if_false, Bool.false_eq_true]
      exact h2.1
  · show id ∉ (buildResults _ _ _ _ _ _ _ _ _).2.1
    unfold buildResults
    by_cases h3 : env.aiAnalysisEnabled = true
    · simp only [h3, if_true]
      exact h2.2
    · simp only [h3, if_false, Bool.false_eq_true]
      exact h2.2

/-- Witness for C1 at a concrete run: the commit message `Closes: TODO-12`
with one open ticket, every feature enabled. -/
theorem claim_C1_phase1_precedence_witness :
    mapGet (buildResults envW commitW ["src/a.ts"] [todoW] (fun _ => "")
        quickOracleW p3OracleW "plain diff" "2026-01-01T00:00:00.000Z").1 "TODO-12"
        = some (phase1ResultData commitW)
    ∧ "TODO-12" ∉ (buildResults envW commitW ["src/a.ts"] [todoW] (fun _ => "")
        quickOracleW p3OracleW "plain diff" "2026-01-01T00:00:00.000Z").2.1 :=
  claim_C1_phase1_precedence envW commitW ["src/a.ts"] [todoW] (fun _ => "")
    quickOracleW p3OracleW "plain diff" "2026-01-01T00:00:00.000Z" "TODO-12" (by decide)

/-! ## Claim C2 -/

/-- A matcher that fires at a suffix makes the position scan fire. -/
theorem scanFor_suffix (test : List Char → Bool) (pre l : List Char)
    (h : test l = true) : scanFor test (pre ++ l) = true := by
  induction pre with
  | nil =>
    cases l with
    | nil => simpa [scanFor] using h
    | cons c t => simp [scanFor, h]
  | cons c t ih => simp [scanFor, ih]

/-- `takeWhile` over a block that satisfies the predicate keeps at least
the block. -/
theorem takeWhile_length_ge (p : Char → Bool) (mid post : List Char)
    (h : ∀ c ∈ mid, p c = true) :
    mid.length ≤ ((mid ++ post).takeWhile p).length := by
  induction mid with
  | nil => simp
  | cons c t ih =>
    have hc : p c = true := h c (by simp)
    simp only [List.cons_append, List.takeWhile_cons, hc, if_true, List.length_cons]
    have := ih (fun x hx => h x (by simp [hx]))
    omega

/-- A diff containing `sk-` followed by 20+ alphanumerics trips
`detectSecrets`. -/
theorem detectSecrets_of_sk (s : String) (h : skSecretIn s) :
    detectSecrets s = true := by
  obtain ⟨pre, mid, post, hs, hlen, hal⟩ := h
  have hat : skAt ('s' :: 'k' :: '-' :: (mid ++ post)) = true := by
    simp only [skAt, decide_eq_true_eq]
    have := takeWhile_length_ge Char.isAlphanum mid post hal
    omega
  have hscan : scanFor skAt s.toList = true := by
    rw [hs]
    exact scanFor_suffix skAt pre _ hat
  unfold detectSecrets
  simp only [Bool.or_eq_true]
  exact Or.inl (Or.inl (Or.inl (Or.inl (Or.inl (Or.inl (Or.inl (Or.inl hscan)))))))

/-- Claim C2: when the full commit diff trips a secret pattern (in
particular `sk-` + 20 alphanumerics, last conjunct), the Phase 3 step
returns no results and sends nothing to the model (`none` payload), and
the whole run's result map is exactly the Phase 1/2 map. -/
theorem claim_C2_secret_abort (env : RunEnv) (commit : Commit)
    (filteredFiles : List String) (unclosedTodos : List Todo)
    (fileDiffOf : String → String)
    (quickOracle : String → Todo → Except String QuickRaw)
    (p3Oracle : String → List Todo → Except String (List AIRaw))
    (diff now : String)
    (h : detectSecrets diff = true) :
    phase3_analyzeWithAI env p3Oracle diff unclosedTodos = ([], none)
    ∧ buildResults env commit filteredFiles unclosedTodos fileDiffOf quickOracle
        p3Oracle diff now
      = ((phase12Results env commit filteredFiles unclosedTodos fileDiffOf quickOracle now).1,
         (phase12Results env commit filteredFiles unclosedTodos fileDiffOf quickOracle now).2,
         none)
    ∧ (∀ s : String, skSecretIn s → detectSecrets s = true) := by
  have h3 : phase3_analyzeWithAI env p3Oracle diff unclosedTodos = ([], none) := by
    unfold phase3_analyzeWithAI
    by_cases h1 : env.aiAnalysisEnabled = false
    · simp [h1]
    · by_cases h2k : env.hasOpenAIKey = false
      · simp [h1, h2k]
      · simp [h1, h2k, sanitizeDiff, h]
  refine ⟨h3, ?_, fun s hs => detectSecrets_of_sk s hs⟩
  unfold buildResults
  by_cases hA : env.aiAnalysisEnabled = true
  · simp [hA, h3, phase3Fold]
  · simp [hA]

/-- Witness for C2: a concrete diff holding an OpenAI-key-shaped string,
with every feature enabled. -/
theorem claim_C2_secret_abort_witness :
    phase3_analyzeWithAI envW p3OracleW "sk-aaaaaaaaaaaaaaaaaaaa" [todoW] = ([], none)
    ∧ buildResults envW commitW ["src/a.ts"] [todoW] (fun _ => "") quickOracleW
        p3OracleW "sk-aaaaaaaaaaaaaaaaaaaa" "2026-01-01T00:00:00.000Z"
      = ((phase12Results envW commitW ["src/a.ts"] [todoW] (fun _ => "") quickOracleW
            "2026-01-01T00:00:00.000Z").1,
         (phase12Results envW commitW ["src/a.ts"] [todoW] (fun _ => "") quickOracleW
            "2026-01-01T00:00:00.000Z").2,
         none)
    ∧ (∀ s : String, skSecretIn s → detectSecrets s = true) :=
  claim_C2_secret_abort envW commitW ["src/a.ts"] [todoW] (fun _ => "") quickOracleW
    p3OracleW "sk-aaaaaaaaaaaaaaaaaaaa" "2026-01-01T00:00:00.000Z" (by decide)

/-! ## Claim C3 -/

/-- Counterexample to C3 as stated: a per-file diff that trips the secret
patterns is nevertheless embedded verbatim in Phase 2's lightweight model
prompt — `quickAICheck` runs no secret scan before its model call. -/
theorem claim_C3_counterexample :
    detectSecrets "sk-aaaaaaaaaaaaaaaaaaaa" = true
    ∧ quickAICheck true quickOracleW "sk-aaaaaaaaaaaaaaaaaaaa" todoW
        = Except.ok ("sk-aaaaaaaaaaaaaaaaaaaa", 1, "ok") := by
  exact ⟨by decide, rfl⟩

/-- Claim C3 amended: Phase 3's full-commit diff is guarded by secret
detection and the 6000-character cap before its model call, but Phase 2's
per-file diff is only size-limited (sliced to 3000 characters) and leaves
the process without any secret scan. -/
theorem claim_C3_amended (env : RunEnv)
    (p3Oracle : String → List Todo → Except String (List AIRaw))
    (diff : String) (todos : List Todo) (hasKey : Bool)
    (quickOracle : String → Todo → Except String QuickRaw)
    (fileDiff : String) (todo : Todo) :
    (∀ s, (phase3_analyzeWithAI env p3Oracle diff todos).2 = some s →
      detectSecrets diff = false ∧ jsLength s ≤ MAX_DIFF_SIZE)
    ∧ (∀ sent conf reason,
        quickAICheck hasKey quickOracle fileDiff todo = Except.ok (sent, conf, reason) →
        sent = jsSlice fileDiff 3000 ∧ jsLength sent ≤ 3000) := by
  constructor
  · intro s hs
    unfold phase3_analyzeWithAI at hs
    by_cases h1 : env.aiAnalysisEnabled = false
    · simp [h1] at hs
    · by_cases h2 : env.hasOpenAIKey = false
      · simp [h1, h2] at hs
      · rw [if_neg h1, if_neg h2] at hs
        cases hsd : sanitizeDiff diff with
        | error e => simp [hsd] at hs
        | ok sd =>
          simp only [hsd] at hs
          have hsome : s = sd := by
            cases ha : analyzeWithAI env.hasOpenAIKey p3Oracle sd todos with
            | error e =>
              simp only [ha] at hs
              exact (Option.some.inj hs).symm
            | ok rs =>
              simp only [ha] at hs
              exact (Option.some.inj hs).symm
          unfold sanitizeDiff at hsd
          by_cases hd : detectSecrets diff = true
          · simp [hd] at hsd
          · have hdf : detectSecrets diff = false := by simpa using hd
            refine ⟨hdf, ?_⟩
            simp only [hdf, Bool.false_eq_true, if_false] at hsd
            by_cases hlen : MAX_DIFF_SIZE < jsLength diff
            · simp only [hlen, if_true, Except.ok.injEq] at hsd
              rw [hsome, ← hsd]
              simp only [jsLength, jsSlice, String.toList, List.length_take]
              omega
            · simp only [hlen, if_false, Except.ok.injEq] at hsd
              rw [hsome, ← hsd]
              omega
  · intro sent conf reason hq
    unfold quickAICheck at hq
    by_cases hk : hasKey = false
    · simp [hk] at hq
    · rw [if_neg hk] at hq
      have hlen : jsLength (jsSlice fileDiff 3000) ≤ 3000 := by
        simp only [jsLength, jsSlice, String.toList, List.length_take]
        omega
      cases ho : quickOracle (jsSlice fileDiff 3000) todo with
      | ok r =>
        simp only [ho, Except.ok.injEq, Prod.mk.injEq] at hq
        refine ⟨hq.1.symm, ?_⟩
        rw [← hq.1]
        exact hlen
      | error e =>
        simp only [ho, Except.ok.injEq, Prod.mk.injEq] at hq
        refine ⟨hq.1.symm, ?_⟩
        rw [← hq.1]
        exact hlen

/-! ## Claim C4 -/

/-- Counterexample to C4 as stated: the verb `Close` is outside the
claim's verb set `{Closes, Fixes, Resolves, Completes, Done}`, yet the
source pattern (`Closes?`) accepts it, so Phase 1 extracts `TODO-5` from
`Close: TODO-5` while the spec-worded extraction finds nothing. -/
theorem claim_C4_counterexample :
    phase1_extractFromMessage "Close: TODO-5" = ["TODO-5"]
    ∧ specPhase1Extract "Close: TODO-5" = [] := by
  exact ⟨by decide, by decide⟩

/-- Every id the scan loop emits comes from a pattern match at some
position of the message. -/
theorem commitScanAux_sound (vs : List String) :
    ∀ (fuel : Nat) (l : List Char) (id : String), id ∈ commitScanAux vs fuel l →
      ∃ i n, tryVerbs vs (l.drop i) = some (id, n) := by
  intro fuel
  induction fuel with
  | zero => intro l id h; simp [commitScanAux] at h
  | succ f ih =>
    intro l id h
    simp only [commitScanAux] at h
    cases ht : tryVerbs vs l with
    | some p =>
      obtain ⟨todoId, n⟩ := p
      rw [ht] at h
      simp only [List.mem_cons] at h
      cases h with
      | inl he => exact ⟨0, n, by simpa [he] using ht⟩
      | inr hm =>
        obtain ⟨i, n', hs⟩ := ih (l.drop n) id hm
        refine ⟨n + i, n', ?_⟩
        rwa [List.drop_drop] at hs
    | none =>
      rw [ht] at h
      cases l with
      | nil => simp at h
      | cons c t =>
        obtain ⟨i, n', hs⟩ := ih t id h
        refine ⟨i + 1, n', ?_⟩
        simpa using hs

/-- Everything `dedupAux` returns was in its input. -/
theorem dedupAux_subset :
    ∀ (l seen : List String) (a : String), a ∈ dedupAux seen l → a ∈ l := by
  intro l
  induction l with
  | nil => intro seen a h; simp [dedupAux] at h
  | cons x t ih =>
    intro seen a h
    simp only [dedupAux] at h
    by_cases hc : seen.contains x = true
    · rw [if_pos hc] at h
      exact List.mem_cons_of_mem x (ih seen a h)
    · rw [if_neg hc] at h
      cases h with
      | head => exact List.mem_cons_self x t
      | tail _ hm => exact List.mem_cons_of_mem x (ih (seen ++ [x]) a hm)

/-- `dedupAux` yields a duplicate-free list avoiding the seen set. -/
theorem dedupAux_nodup :
    ∀ (l seen : List String),
      (dedupAux seen l).Nodup ∧ ∀ a ∈ dedupAux seen l, a ∉ seen := by
  intro l
  induction l with
  | nil => intro seen; simp [dedupAux]
  | cons x t ih =>
    intro seen
    simp only [dedupAux]
    by_cases hc : seen.contains x = true
    · rw [if_pos hc]
      exact ih seen
    · rw [if_neg hc]
      have hxs : x ∉ seen := by
        intro hmem
        exact hc (List.elem_eq_true_of_mem hmem)
      have ihx := ih (seen ++ [x])
      constructor
      · refine List.nodup_cons.2 ⟨?_, ihx.1⟩
        intro hxin
        have := ihx.2 x hxin
        simp at this
      · intro a ha
        cases ha with
        | head => exact hxs
        | tail _ hm =>
          intro hmem
          exact ihx.2 a hm (by simp [hmem])

/-- Claim C4 amended: Phase 1 returns a duplicate-free list, every
returned id comes from an occurrence of verb + colon + optional whitespace
+ `TODO-` + digits where the verb ranges over the source pattern's forms
(Close/Closes, Fix/Fixes, Resolve/Resolves/Resolved,
Complete/Completes/Completed, Done, case-insensitively) — not only the
spec's five verbs; repeats of `Closes: TODO-12` still extract exactly
`["TODO-12"]`. -/
theorem claim_C4_amended :
    (∀ (m : String) (id : String), id ∈ phase1_extractFromMessage m →
      ∃ i n, tryVerbs commitVerbForms (m.toList.drop i) = some (id, n))
    ∧ (∀ m : String, (phase1_extractFromMessage m).Nodup)
    ∧ phase1_extractFromMessage "Closes: TODO-12\nCloses: TODO-12" = ["TODO-12"]
    ∧ phase1_extractFromMessage "Close: TODO-5" = ["TODO-5"] := by
  refine ⟨?_, ?_, by decide, by decide⟩
  · intro m id h
    exact commitScanAux_sound commitVerbForms m.toList.length m.toList id
      (dedupAux_subset _ [] id h)
  · intro m
    exact (dedupAux_nodup _ []).1

/-! ## Claim C5 -/

/-- The glob loop is first-match search. -/
theorem phase2FindGlob_eq_find (files : List String) (t : String) :
    phase2FindGlob files t = files.find? (fun f => minimatch f t) := by
  induction files with
  | nil => rfl
  | cons f rest ih =>
    simp only [phase2FindGlob]
    cases h : minimatch f t with
    | true => simp [h, List.find?_cons_of_pos]
    | false => simp [h, List.find?_cons_of_neg, ih]

/-- The substring loop is first-match search. -/
theorem phase2FindSub_eq_find (files : List String) (t : String) :
    phase2FindSub files t
      = files.find? (fun f =>
          containsSub f.toList t.toList || containsSub t.toList f.toList) := by
  induction files with
  | nil => rfl
  | cons f rest ih =>
    simp only [phase2FindSub]
    cases h : containsSub f.toList t.toList || containsSub t.toList f.toList with
    | true =>
      rw [if_pos rfl]
      exact (List.find?_cons_of_pos rest h).symm
    | false =>
      have hp : ¬ ((containsSub f.toList t.toList || containsSub t.toList f.toList) = true) := by
        rw [h]
        simp
      have hf : ¬ (false = true) := by simp
      rw [if_neg hf, ih, List.find?_cons_of_neg rest hp]

/-- Claim C5: for a ticket with a non-blank declared artifact pattern,
Phase 2 reports the first changed file matching the pattern — glob
semantics when the pattern holds a wildcard, bidirectional substring
containment otherwise; and on the spec's concrete example
(`["src/foo.ts"]`), pattern `src/*.ts` matches while `src/bar.ts` does
not. -/
theorem claim_C5_phase2_matching :
    (∀ (files : List String) (todo : Todo) (t : String),
      todo.hanteiInfo = some { seikabutsuFileName := some t } →
      t ≠ "" → jsTrim t ≠ "" →
      phase2_matchByFileName files [todo] =
        match files.find? (fun f =>
            if t.toList.contains '*' || t.toList.contains '?' then minimatch f t
            else containsSub f.toList t.toList || containsSub t.toList f.toList) with
        | some f => [{ todoNo := todo.ToDoNo,
                       reason := "ファイル照合: " ++ t ++ " → " ++ f,
                       matchedFile := f }]
        | none => [])
    ∧ phase2_matchByFileName ["src/foo.ts"]
        [{ ToDoNo := "TODO-001", statusJa := "起票",
           hanteiInfo := some { seikabutsuFileName := some "src/*.ts" } }]
        = [{ todoNo := "TODO-001",
             reason := "ファイル照合: src/*.ts → src/foo.ts",
             matchedFile := "src/foo.ts" }]
    ∧ phase2_matchByFileName ["src/foo.ts"]
        [{ ToDoNo := "TODO-001", statusJa := "起票",
           hanteiInfo := some { seikabutsuFileName := some "src/bar.ts" } }]
        = [] := by
  refine ⟨?_, by decide, by decide⟩
  intro files todo t hinfo h1 h2
  simp only [phase2_matchByFileName, hinfo, h1, h2]
  cases hw : t.toList.contains '*' || t.toList.contains '?' with
  | true =>
    simp only [hw, if_true, phase2FindGlob_eq_find]
    simp
  | false =>
    simp only [hw, if_false, Bool.false_eq_true, phase2FindSub_eq_find]
    simp

/-! ## Claim C6 -/

/-- One successful `markAsCloseCandidate` call: the write goes back to the
same document id, the close-candidate flag is set, and the stored history
is the old history with exactly one entry appended. -/
theorem markAsCloseCandidate_fields (store : Store) (todoNo : String)
    (p : ResultData) (now today : String) (todo0 : Todo)
    (h : mapGet store todoNo = some todo0) :
    ∃ t1, markAsCloseCandidate store todoNo p now today
        = Except.ok (mapSet store todoNo t1, t1)
      ∧ t1.hanteiRireki = some (todo0.hanteiRireki.getD [] ++ [mkHistoryEntry p now])
      ∧ t1.closeCandidate = some "ON" := by
  unfold markAsCloseCandidate
  rw [h]
  refine ⟨_, rfl, ?_, ?_⟩
  · cases hs : p.status with
    | none =>
      cases hai : p.aiAnalysis <;> simp
    | some st =>
      cases hai : p.aiAnalysis <;>
        simp [apply_ite (fun t : Todo => t.hanteiRireki)]
  · cases hs : p.status with
    | none =>
      cases hai : p.aiAnalysis <;> simp
    | some st =>
      cases hai : p.aiAnalysis <;>
        simp [apply_ite (fun t : Todo => t.closeCandidate)]

/-- Claim C6: each `markAsCloseCandidate` call appends exactly one
audit-history entry, never removing or overwriting the existing ones, and
marking the same ticket twice leaves the same single document (same id
set) with the flag set and the original history extended by exactly the
two new entries. -/
theorem claim_C6_mark_idempotent (store : Store) (todoNo : String)
    (p q : ResultData) (now1 today1 now2 today2 : String) (todo0 : Todo)
    (h : mapGet store todoNo = some todo0) :
    ∃ st1 t1 st2 t2,
      markAsCloseCandidate store todoNo p now1 today1 = Except.ok (st1, t1)
      ∧ markAsCloseCandidate st1 todoNo q now2 today2 = Except.ok (st2, t2)
      ∧ t1.hanteiRireki = some (todo0.hanteiRireki.getD [] ++ [mkHistoryEntry p now1])
      ∧ t2.hanteiRireki = some (todo0.hanteiRireki.getD []
          ++ [mkHistoryEntry p now1, mkHistoryEntry q now2])
      ∧ t1.closeCandidate = some "ON"
      ∧ t2.closeCandidate = some "ON"
      ∧ mapGet st1 todoNo = some t1
      ∧ mapGet st2 todoNo = some t2
      ∧ st1.map Prod.fst = store.map Prod.fst
      ∧ st2.map Prod.fst = store.map Prod.fst := by
  obtain ⟨t1, he1, hh1, hc1⟩ :=
    markAsCloseCandidate_fields store todoNo p now1 today1 todo0 h
  have hg1 : mapGet (mapSet store todoNo t1) todoNo = some t1 :=
    mapGet_mapSet_self store todoNo t1
  obtain ⟨t2, he2, hh2, hc2⟩ :=
    markAsCloseCandidate_fields (mapSet store todoNo t1) todoNo q now2 today2 t1 hg1
  have hk1 : (mapSet store todoNo t1).map Prod.fst = store.map Prod.fst :=
    mapSet_keys store todoNo t1 (by simp [h])
  have hk2 : (mapSet (mapSet store todoNo t1) todoNo t2).map Prod.fst
      = store.map Prod.fst := by
    rw [mapSet_keys (mapSet store todoNo t1) todoNo t2 (by simp [hg1])]
    exact hk1
  refine ⟨mapSet store todoNo t1, t1, mapSet (mapSet store todoNo t1) todoNo t2, t2,
    he1, he2, hh1, ?_, hc1, hc2, hg1,
    mapGet_mapSet_self (mapSet store todoNo t1) todoNo t2, hk1, hk2⟩
  rw [hh2, hh1]
  simp

/-- Witness for C6 at a concrete one-document store. -/
theorem claim_C6_mark_idempotent_witness :
    ∃ st1 t1 st2 t2,
      markAsCloseCandidate [("TODO-12", todoW)] "TODO-12" (phase1ResultData commitW)
          "2026-01-01T00:00:00.000Z" "2026-01-01" = Except.ok (st1, t1)
      ∧ markAsCloseCandidate st1 "TODO-12" (phase1ResultData commitW)
          "2026-01-02T00:00:00.000Z" "2026-01-02" = Except.ok (st2, t2)
      ∧ t1.hanteiRireki = some (todoW.hanteiRireki.getD []
          ++ [mkHistoryEntry (phase1ResultData commitW) "2026-01-01T00:00:00.000Z"])
      ∧ t2.hanteiRireki = some (todoW.hanteiRireki.getD []
          ++ [mkHistoryEntry (phase1ResultData commitW) "2026-01-01T00:00:00.000Z",
              mkHistoryEntry (phase1ResultData commitW) "2026-01-02T00:00:00.000Z"])
      ∧ t1.closeCandidate = some "ON"
      ∧ t2.closeCandidate = some "ON"
      ∧ mapGet st1 "TODO-12" = some t1
      ∧ mapGet st2 "TODO-12" = some t2
      ∧ st1.map Prod.fst = [("TODO-12", todoW)].map Prod.fst
      ∧ st2.map Prod.fst = [("TODO-12", todoW)].map Prod.fst :=
  claim_C6_mark_idempotent [("TODO-12", todoW)] "TODO-12"
    (phase1ResultData commitW) (phase1ResultData commitW)
    "2026-01-01T00:00:00.000Z" "2026-01-01" "2026-01-02T00:00:00.000Z" "2026-01-02"
    todoW (by decide)

/-! ## Claim C7 -/

/-- Claim C7 (the code at the failing input): a run whose Phase 2 produces
the merged result — its `phase` field says Phase 2 in both variants — gets
an audit-history entry whose stored phase label says `Phase3 (AI)` (AI
path: the label heuristic fires on the attached `aiAnalysis`) or `Phase1
(コミットメッセージ)` (plain path: it fires on the non-empty commit hash).
The persisted label never equals the generating phase for Phase 2. -/
theorem claim_C7_phase_label_eval :
    (mapGet (buildResults envC7 commitC7 ["docs/x.md"] [todoC7] (fun _ => "diff text")
          quickOracleW p3OracleW "" "2026-01-01T00:00:00.000Z").1 "TODO-009").map
        (fun d => (d.phase, (mkHistoryEntry d "2026-01-01T00:00:00.000Z").hanteiHoushiki))
      = some ("Phase2改 (AI)", "Phase3 (AI)")
    ∧ (mapGet (buildResults envC7plain commitC7 ["docs/x.md"] [todoC7] (fun _ => "diff text")
          quickOracleW p3OracleW "" "2026-01-01T00:00:00.000Z").1 "TODO-009").map
        (fun d => (d.phase, (mkHistoryEntry d "2026-01-01T00:00:00.000Z").hanteiHoushiki))
      = some ("Phase2 (従来)", "Phase1 (コミットメッセージ)") := by
  exact ⟨by decide, by decide⟩

/-! ## Claim C8 -/

/-- Claim C8: a secret-free diff over the 6000-character limit is
truncated to exactly that limit — the sent text is the length-6000 prefix
of the diff — while a diff at or below the limit is sent unchanged; and
Phase 2's model call always embeds exactly the 3000-character slice of its
per-file diff. -/
theorem claim_C8_truncation (d fd : String) (h : detectSecrets d = false) :
    sanitizeDiff d
      = Except.ok (if MAX_DIFF_SIZE < jsLength d then jsSlice d MAX_DIFF_SIZE else d)
    ∧ (MAX_DIFF_SIZE < jsLength d →
        jsLength (jsSlice d MAX_DIFF_SIZE) = MAX_DIFF_SIZE
        ∧ (jsSlice d MAX_DIFF_SIZE).toList ++ d.toList.drop MAX_DIFF_SIZE = d.toList)
    ∧ (jsLength d ≤ MAX_DIFF_SIZE → sanitizeDiff d = Except.ok d)
    ∧ (∀ (oracle : String → Todo → Except String QuickRaw) (todo : Todo),
        ∃ conf reason,
          quickAICheck true oracle fd todo = Except.ok (jsSlice fd 3000, conf, reason)) := by
  refine ⟨?_, ?_, ?_, ?_⟩
  · unfold sanitizeDiff
    rw [if_neg (by simp [h])]
    by_cases hl : MAX_DIFF_SIZE < jsLength d
    · rw [if_pos hl, if_pos hl]
    · rw [if_neg hl, if_neg hl]
  · intro hl
    simp only [jsLength, String.toList] at hl
    constructor
    · simp only [jsLength, jsSlice, String.toList, List.length_take]
      omega
    · simp only [jsSlice, String.toList]
      exact List.take_append_drop MAX_DIFF_SIZE d.data
  · intro hl
    unfold sanitizeDiff
    rw [if_neg (by simp [h]), if_neg (by omega)]
  · intro oracle todo
    unfold quickAICheck
    rw [if_neg (by simp)]
    cases ho : oracle (jsSlice fd 3000) todo with
    | ok r =>
      refine ⟨r.confidence.getD 0,
        (match r.reason with
         | some s => if s = "" then "AI判定完了" else s
         | none => "AI判定完了"), ?_⟩
      simp only [ho]
    | error e =>
      refine ⟨0, "AI判定エラー", ?_⟩
      simp only [ho]

/-- Witness for C8 on a concrete short diff. -/
theorem claim_C8_truncation_witness :
    sanitizeDiff "hello diff"
      = Except.ok (if MAX_DIFF_SIZE < jsLength "hello diff"
          then jsSlice "hello diff" MAX_DIFF_SIZE else "hello diff")
    ∧ (MAX_DIFF_SIZE < jsLength "hello diff" →
        jsLength (jsSlice "hello diff" MAX_DIFF_SIZE) = MAX_DIFF_SIZE
        ∧ (jsSlice "hello diff" MAX_DIFF_SIZE).toList
            ++ ("hello diff" : String).toList.drop MAX_DIFF_SIZE
            = ("hello diff" : String).toList)
    ∧ (jsLength "hello diff" ≤ MAX_DIFF_SIZE →
        sanitizeDiff "hello diff" = Except.ok "hello diff")
    ∧ (∀ (oracle : String → Todo → Except String QuickRaw) (todo : Todo),
        ∃ conf reason,
          quickAICheck true oracle "file diff" todo
            = Except.ok (jsSlice "file diff" 3000, conf, reason)) :=
  claim_C8_truncation "hello diff" "file diff" (by decide)

/-! ## Claim C9 -/

/-- Claim C9: project resolution is exact equality of normalized names
(trim + smart-quote folding — last conjunct shows a curly-quoted name
equals its straight-quoted form); a returned project's name normalizes to
the search name, an all-mismatch store yields `none`, and an unresolved
name still produces exactly one pending record, with an empty project
reference and status `pending`. -/
theorem claim_C9_project_resolution :
    (∀ (pn : String) (docs : List (String × Project)) (id : String) (p : Project),
      findProjectByName pn (Except.ok docs) = some (id, p) →
      normalizeProjectName (some (p.name.getD "")) = normalizeProjectName (some pn))
    ∧ (∀ (pn : String) (docs : List (String × Project)),
      (∀ d ∈ docs,
        normalizeProjectName (some (d.2.name.getD "")) ≠ normalizeProjectName (some pn)) →
      findProjectByName pn (Except.ok docs) = none)
    ∧ (∀ (analysisResult : AnalysisResult)
        (projectsQ : Except String (List (String × Project)))
        (optsFile commitArg pushedBy now aiModel pn : String),
      analysisResult.projectName = some pn →
      findProjectByName pn projectsQ = none →
      ∃ rec, (minutesResolveAndSave "" analysisResult projectsQ optsFile commitArg
          pushedBy now aiModel).1 = [rec]
        ∧ rec.projectId = "" ∧ rec.statusP = "pending")
    ∧ normalizeProjectName (some " “Project A” ")
        = normalizeProjectName (some "\"Project A\"") := by
  refine ⟨?_, ?_, ?_, by decide⟩
  · intro pn docs id p hf
    unfold findProjectByName at hf
    by_cases hb : (pn = "" || jsTrim pn = "") = true
    · rw [if_pos hb] at hf
      exact absurd hf (by simp)
    · rw [if_neg hb] at hf
      have := List.find?_some hf
      simpa using this
  · intro pn docs hall
    unfold findProjectByName
    by_cases hb : (pn = "" || jsTrim pn = "") = true
    · rw [if_pos hb]
    · rw [if_neg hb]
      refine List.find?_eq_none.2 ?_
      intro d hd
      simpa using hall d hd
  · intro analysisResult projectsQ optsFile commitArg pushedBy now aiModel pn hpn hfind
    simp only [minutesResolveAndSave, hpn]
    by_cases hpn0 : pn = ""
    · simp only [hpn0, if_pos rfl]
      exact ⟨_, rfl, rfl, rfl⟩
    · simp only [hfind, if_neg hpn0, if_pos rfl]
      exact ⟨_, rfl, rfl, rfl⟩

/-! ## Claim C10 -/

/-- Claim C10: when the open-ticket lookup fails — the project query
throws, no project is linked to the repository, the per-project ticket
query throws, or (with no repository configured) the whole-collection
query throws — `getUnclosedTodos` returns `[]` and the run takes the
"no open tickets" exit: code 0, store untouched. -/
theorem claim_C10_store_failure_exit_zero (env : RunEnv) (commit : Commit)
    (changedFiles : List String)
    (allTodosQ : Except String (List Todo))
    (projectQ : String → Except String (Option (String × Project)))
    (todosOfProject : String → Except String (List Todo))
    (fileDiffOf : String → String)
    (quickOracle : String → Todo → Except String QuickRaw)
    (p3Oracle : String → List Todo → Except String (List AIRaw))
    (diffText : String) (store : Store) (now today : String)
    (repo e pid : String) (proj : Project) :
    (projectQ repo = Except.error e →
      getUnclosedTodos (some repo) allTodosQ projectQ todosOfProject = []
      ∧ (mainRun env (some commit) changedFiles (some repo) allTodosQ projectQ
          todosOfProject fileDiffOf quickOracle p3Oracle diffText store now today).exitCode = 0
      ∧ (mainRun env (some commit) changedFiles (some repo) allTodosQ projectQ
          todosOfProject fileDiffOf quickOracle p3Oracle diffText store now today).store = store)
    ∧ (projectQ repo = Except.ok none →
      getUnclosedTodos (some repo) allTodosQ projectQ todosOfProject = []
      ∧ (mainRun env (some commit) changedFiles (some repo) allTodosQ projectQ
          todosOfProject fileDiffOf quickOracle p3Oracle diffText store now today).exitCode = 0
      ∧ (mainRun env (some commit) changedFiles (some repo) allTodosQ projectQ
          todosOfProject fileDiffOf quickOracle p3Oracle diffText store now today).store = store)
    ∧ (projectQ repo = Except.ok (some (pid, proj)) →
      todosOfProject pid = Except.error e →
      getUnclosedTodos (some repo) allTodosQ projectQ todosOfProject = []
      ∧ (mainRun env (some commit) changedFiles (some repo) allTodosQ projectQ
          todosOfProject fileDiffOf quickOracle p3Oracle diffText store now today).exitCode = 0
      ∧ (mainRun env (some commit) changedFiles (some repo) allTodosQ projectQ
          todosOfProject fileDiffOf quickOracle p3Oracle diffText store now today).store = store)
    ∧ (allTodosQ = Except.error e →
      getUnclosedTodos none allTodosQ projectQ todosOfProject = []
      ∧ (mainRun env (some commit) changedFiles none allTodosQ projectQ
          todosOfProject fileDiffOf quickOracle p3Oracle diffText store now today).exitCode = 0
      ∧ (mainRun env (some commit) changedFiles none allTodosQ projectQ
          todosOfProject fileDiffOf quickOracle p3Oracle diffText store now today).store = store) := by
  refine ⟨?_, ?_, ?_, ?_⟩
  · intro hq
    have hget : getUnclosedTodos (some repo) allTodosQ projectQ todosOfProject = [] := by
      simp [getUnclosedTodos, getUnclosedTodosE, hq, Except.instMonad, Except.bind, Except.map, Except.pure, Bind.bind, Functor.map]
    refine ⟨hget, ?_, ?_⟩ <;> simp [mainRun, hget]
  · intro hq
    have hget : getUnclosedTodos (some repo) allTodosQ projectQ todosOfProject = [] := by
      simp [getUnclosedTodos, getUnclosedTodosE, hq, Except.instMonad, Except.bind, Except.map, Except.pure, Bind.bind, Functor.map]
    refine ⟨hget, ?_, ?_⟩ <;> simp [mainRun, hget]
  · intro hq ht
    have hget : getUnclosedTodos (some repo) allTodosQ projectQ todosOfProject = [] := by
      simp [getUnclosedTodos, getUnclosedTodosE, hq, ht, Except.instMonad, Except.bind, Except.map, Except.pure, Bind.bind, Functor.map]
    refine ⟨hget, ?_, ?_⟩ <;> simp [mainRun, hget]
  · intro hq
    have hget : getUnclosedTodos none allTodosQ projectQ todosOfProject = [] := by
      simp [getUnclosedTodos, getUnclosedTodosE, hq, Except.instMonad, Except.bind, Except.map, Except.pure, Bind.bind, Functor.map]
    refine ⟨hget, ?_, ?_⟩ <;> simp [mainRun, hget]
